import Mathlib

/-!
Verification development for the daily airline digest sender
(`daily_airline-digest_email_sender.py`).

The Python program is embedded shallowly: every external effect (HTTP
responses, the persisted JSON file, the random pick, the current time,
environment variables) is passed in explicitly as data, and each Python
function becomes a pure Lean function over that data.  Logging (`print`)
is not modelled.
-/

/-- An address object of an enrichment (destination) record; in the JSON it
may or may not carry a `countryCode` field. -/
structure Address where
  countryCode : Option String
deriving DecidableEq, Repr

/-- A destination record returned by the enrichment API.  Each field models
a JSON key that may be absent (`d.get(...)` in Python). -/
structure Destination where
  iataCode : Option String
  name : Option String
  address : Option Address
deriving DecidableEq, Repr

/-- A catalog item (airline dictionary from the airline-facts API).  Fields
mirror the keys the program reads via `airline_data.get(...)`; the `fleet`
dictionary is a list of key-value pairs in insertion order, values kept as
the strings they are rendered to. -/
structure Airline where
  iata : Option String
  name : Option String
  logo_url : Option String
  fleet : List (String × String)
  year_created : Option String
  country : Option String
  base : Option String
  icao : Option String
deriving DecidableEq, Repr

/-- State of the persisted ledger file `sent_airlines.json`: absent,
unreadable/unparsable, or a good JSON document with a `sent` list and a
`last_updated` timestamp. -/
inductive FileState where
  | missing
  | corrupt
  | good (sent : List String) (last_updated : String)
deriving DecidableEq, Repr

/-- Embedding of `get_sent_airlines` (source lines 72-84): read the sent
airlines from the local JSON file; on a missing file or any read/parse
error return the empty set.  The Python `set` is represented as a list,
with only membership ever used. -/
def get_sent_airlines : FileState → List String
  | FileState.missing => []
  | FileState.corrupt => []
  | FileState.good sent _ => sent

/-- Outcome of the file write in `add_sent_airline`: the write completes;
`open(SENT_FILE, 'w')` itself raises, leaving the file untouched; or open
succeeds but `json.dump` (or the write behind it) raises — since opening
with mode `w` truncates the file immediately, this leaves a
truncated/corrupt file behind. -/
inductive WriteOutcome where
  | ok
  | openFailed
  | writeFailed
deriving DecidableEq, Repr

/-- Embedding of `add_sent_airline` (source lines 86-100): re-read the
current state, insert the new identifier, and rewrite the whole file with
a fresh timestamp.  `now` models `datetime.now().isoformat()`; `w` models
how the `open`/`json.dump` step goes.  Returns the Python return value
paired with the resulting file state: a failure at open time preserves the
previous state, while a failure after open has truncated the file leaves
it corrupt (so a later `get_sent_airlines` loads the empty set). -/
def add_sent_airline (fs : FileState) (iata_code airline_name : String)
    (now : String) (w : WriteOutcome) : Bool × FileState :=
  let sent_set := get_sent_airlines fs
  let sent' := sent_set.insert iata_code
  match w with
  | WriteOutcome.ok => (true, FileState.good sent' now)
  | WriteOutcome.openFailed => (false, fs)
  | WriteOutcome.writeFailed => (false, FileState.corrupt)

/-- Outcome of the one Amadeus call made by `get_destinations`: a response
whose `data` attribute is present or absent, a domain `ResponseError`, or
any other exception. -/
inductive DestOutcome where
  | success (data : Option (List Destination))
  | responseError
  | otherError
deriving DecidableEq, Repr

/-- Embedding of `get_destinations` (source lines 124-141).  The first
component is the returned list; the second counts HTTP requests issued
(0 when the guard short-circuits, 1 otherwise).  The guard mirrors
Python `if not airline_iata or len(airline_iata) != 2`. -/
def get_destinations (airline_iata : Option String) (outcome : DestOutcome) :
    List Destination × Nat :=
  match airline_iata with
  | none => ([], 0)
  | some s =>
    if s == "" || s.length != 2 then ([], 0)
    else
      match outcome with
      | DestOutcome.success (some data) => (data, 1)
      | DestOutcome.success none => ([], 1)
      | DestOutcome.responseError => ([], 1)
      | DestOutcome.otherError => ([], 1)

/-- Embedding of `send_email_bcc` (source lines 239-283).  `senderName`
models the `SENDER_NAME` environment variable, `httpOutcome` the result of
the single `requests.post` (`none` = exception raised, `some status` = a
response with that status code).  The first component is the Python return
value, the second counts HTTP requests issued. -/
def send_email_bcc (html_content subject sender_email sender_password : String)
    (recipients : List String) (senderName : Option String)
    (httpOutcome : Option Nat) : Bool × Nat :=
  if recipients.isEmpty then (false, 0)
  else
    let sender_display := senderName.getD "Daily Airline"
    let from_header := "\"" ++ sender_display ++ "\" <" ++ sender_email ++ ">"
    match httpOutcome with
    | some status => if status == 200 then (true, 1) else (false, 1)
    | none => (false, 1)

/-- Per-airline step of the dedup loop shared by both textual definitions of
`fetch_all_airlines`: state is `(seen_iata, all_airlines)`; an airline is
appended only when its `iata` is truthy (present and non-empty) and unseen. -/
def fetchStep (st : List String × List Airline) (airline : Airline) :
    List String × List Airline :=
  match airline.iata with
  | none => st
  | some iata =>
    if iata == "" then st
    else if st.1.contains iata then st
    else (iata :: st.1, st.2 ++ [airline])

/-- Per-letter step of `fetch_all_airlines` (second definition, lines
322-357): a failed query (`none`, an exception) is skipped via `continue`;
a successful one folds its page through `fetchStep`. -/
def fetchLetter (st : List String × List Airline)
    (res : Option (List Airline)) : List String × List Airline :=
  match res with
  | none => st
  | some airlines => airlines.foldl fetchStep st

/-- Embedding of the second (later, effective) textual definition of
`fetch_all_airlines` (source lines 322-357).  `queryResults` is the
sequence of per-letter query outcomes for the letters A-Z in order
(`none` = that letter's request raised).  `api_key` only feeds the HTTP
headers in the source and does not influence the fold. -/
def fetch_all_airlines (api_key : String)
    (queryResults : List (Option (List Airline))) : List Airline :=
  (queryResults.foldl fetchLetter ([], [])).2

/-- Per-airline step of the first textual definition of
`fetch_all_airlines` (lines 285-317); its body is letter-for-letter the
same dedup condition. -/
def fetchStepV1 (st : List String × List Airline) (airline : Airline) :
    List String × List Airline :=
  match airline.iata with
  | none => st
  | some iata =>
    if iata == "" then st
    else if st.1.contains iata then st
    else (iata :: st.1, st.2 ++ [airline])

/-- Per-letter step of the first textual definition of
`fetch_all_airlines` (lines 285-317). -/
def fetchLetterV1 (st : List String × List Airline)
    (res : Option (List Airline)) : List String × List Airline :=
  match res with
  | none => st
  | some airlines => airlines.foldl fetchStepV1 st

/-- Embedding of the first (earlier, shadowed) textual definition of
`fetch_all_airlines` (source lines 285-317); it differs from the later one
only in its log messages, which are not modelled. -/
def fetch_all_airlines_v1 (api_key : String)
    (queryResults : List (Option (List Airline))) : List Airline :=
  (queryResults.foldl fetchLetterV1 ([], [])).2

/-- Python membership test `a.get('iata') in sent_airlines` for an optional
identifier against a set of strings: `None` is never a member. -/
def optMem (o : Option String) (sent : List String) : Bool :=
  match o with
  | none => false
  | some s => sent.contains s

/-- The available-airlines computation of `main` (source line 380):
`[a for a in all_airlines if a.get('iata') not in sent_airlines]`. -/
def availableAirlines (catalog : List Airline) (sent_airlines : List String) :
    List Airline :=
  catalog.filter (fun a => !(optMem a.iata sent_airlines))

/-- The selection step of `main` (source lines 380-388): filter the catalog
against the ledger and pick one element of the remainder; `pick` models
the draw of `random.choice`, reduced modulo the number of candidates.
Returns `none` exactly when no airline is available. -/
def chooseAirline (pick : Nat) (catalog : List Airline)
    (sent_airlines : List String) : Option Airline :=
  let avail := availableAirlines catalog sent_airlines
  avail[pick % avail.length]?

/-- One iteration of the destination-parsing loop of `create_email_content`
(source lines 160-174): append a formatted line when the record's
`iataCode` is truthy (present and non-empty); city name defaults to
`Unknown`, country code to `??` when the `address` object or its
`countryCode` is absent. -/
def destStep (valid_dests : List String) (d : Destination) : List String :=
  match d.iataCode with
  | none => valid_dests
  | some airport_code =>
    if airport_code == "" then valid_dests
    else
      let city_name := d.name.getD "Unknown"
      let country_code :=
        match d.address with
        | none => "??"
        | some address => address.countryCode.getD "??"
      valid_dests ++ [airport_code ++ " – " ++ city_name ++ ", " ++ country_code]

/-- The `valid_dests` list built by the loop: empty when `destinations` is
empty (the loop is guarded by `if destinations:`), otherwise the fold of
`destStep` over all records. -/
def validDestinations (destinations : List Destination) : List String :=
  if destinations.isEmpty then []
  else destinations.foldl destStep []

/-- Whether a destination record carries a truthy `iataCode` (Python
`if not airport_code: continue` skips both an absent and an empty code). -/
def destHasCode (d : Destination) : Bool :=
  match d.iataCode with
  | none => false
  | some s => s != ""

/-- The line `create_email_content` formats for one (valid) destination
record: `"<iataCode> – <name-or-Unknown>, <countryCode-or-??>"`. -/
def destLine (d : Destination) : String :=
  d.iataCode.getD "" ++ " – " ++ d.name.getD "Unknown" ++ ", " ++
    (match d.address with
     | none => "??"
     | some address => address.countryCode.getD "??")

/-- Embedding of `create_email_content` (source lines 146-230).  `today`
models `datetime.now().strftime('%B %d, %Y')`, the only impure input of
the Python function.  Returns `(html, airline_name, len(valid_dests))`. -/
def create_email_content (airline_data : Airline)
    (destinations : List Destination) (today : String) :
    String × String × Nat :=
  let airline_name := airline_data.name.getD "Unknown"
  let logo_url := airline_data.logo_url.getD ""
  let logo_html :=
    if logo_url != "" then
      "<img src=\"" ++ logo_url ++ "\" style=\"max-height:80px; max-width:200px;\">"
    else ""
  let fleet := airline_data.fleet
  let fleetJoined :=
    String.intercalate "<br>"
      ((fleet.filter (fun kv => kv.1 != "total")).map (fun kv => kv.1 ++ ": " ++ kv.2))
  let fleet_html := if fleetJoined == "" then "No detailed fleet data" else fleetJoined
  let total_aircraft := (List.lookup "total" fleet).getD "N/A"
  let valid_dests := validDestinations destinations
  let dest_html :=
    if valid_dests.isEmpty then ""
    else
      let mid := (valid_dests.length + 1) / 2
      let col1 := String.intercalate "<br>" (valid_dests.take mid)
      let col2 :=
        if (valid_dests.drop mid).isEmpty then ""
        else String.intercalate "<br>" (valid_dests.drop mid)
      "\n        <div style=\"background:#e8f4fc; padding:15px; border-radius:8px; margin:15px 0;\">\n            <h3 style=\"color:#2980b9;\">🌍 Destination Airports</h3>\n            <div style=\"display:flex;\">\n                <div style=\"flex:1; padding-right:10px;\">" ++ col1 ++
      "</div>\n                <div style=\"flex:1;\">" ++ col2 ++
      "</div>\n            </div>\n            <p style=\"font-size:0.85em; color:#666; margin-top:10px;\">\n                Showing all " ++
      toString valid_dests.length ++ " airports served by " ++ airline_name ++
      ".\n            </p>\n        </div>\n        "
  let html :=
    "\n    <html>\n    <body style=\"font-family:Arial, sans-serif; max-width:650px; margin:auto; color:#333;\">\n        <div style=\"background:linear-gradient(135deg,#1e3c72,#2a5298); padding:20px; color:white; border-radius:10px 10px 0 0;\">\n            <h1>✈️ Daily Airline Discovery</h1>\n            <p>" ++
    today ++
    "</p>\n        </div>\n        <div style=\"padding:25px; border:1px solid #ddd; border-top:none; border-radius:0 0 10px 10px;\">\n            <div style=\"text-align:center; margin-bottom:20px;\">\n                " ++
    logo_html ++
    "\n                <h2>" ++ airline_name ++
    "</h2>\n                <p>IATA: " ++ airline_data.iata.getD "N/A" ++
    " | Founded: " ++ airline_data.year_created.getD "N/A" ++
    " | Country: " ++ airline_data.country.getD "N/A" ++
    "</p>\n            </div>\n            <div style=\"display:flex; flex-wrap:wrap; gap:15px; margin-bottom:20px;\">\n                <div style=\"flex:1; min-width:250px; background:#f8f9fa; padding:15px; border-radius:8px;\">\n                    <h3 style=\"color:#16a085;\">📊 Core Facts</h3>\n                    <p><strong>Base:</strong> " ++
    airline_data.base.getD "N/A" ++
    "</p>\n                    <p><strong>ICAO:</strong> " ++ airline_data.icao.getD "N/A" ++
    "</p>\n                </div>\n                <div style=\"flex:1; min-width:250px; background:#f8f9fa; padding:15px; border-radius:8px;\">\n                    <h3 style=\"color:#e74c3c;\">✈️ Fleet Overview</h3>\n                    <p>" ++
    fleet_html ++
    "</p>\n                    <p><strong>Total Aircraft:</strong> " ++ total_aircraft ++
    "</p>\n                </div>\n            </div>\n            " ++
    dest_html ++
    "\n            <div style=\"font-size:0.8em; color:#95a5a6; text-align:center; margin-top:25px; padding-top:15px; border-top:1px solid #eee;\">\n                <p>Data sources: API-Ninjas (airlines) • Amadeus (destinations)</p>\n                <p>Automated daily service</p>\n            </div>\n        </div>\n    </body>\n    </html>\n    "
  (html, airline_name, valid_dests.length)

/-- The configuration record `load_config` builds from environment
variables (source lines 39-67); `recipients` is the parsed comma-separated
list. -/
structure Config where
  ninjasKey : String
  amadeusId : String
  amadeusSecret : String
  senderEmail : String
  senderPassword : String
  recipients : List String
deriving DecidableEq, Repr

/-- The whole external world of one run of `main`: the outcome of
`load_config` (`none` = a required variable is missing), the ledger file,
the 26 per-letter catalog query outcomes, the random draw, the Amadeus
outcome, the formatted current date, ISO timestamp, sender display name,
the delivery HTTP outcome, and how the ledger file write goes. -/
structure Env where
  config : Option Config
  fileState : FileState
  queryResults : List (Option (List Airline))
  pick : Nat
  destOutcome : DestOutcome
  today : String
  nowIso : String
  senderName : Option String
  sendOutcome : Option Nat
  writeOutcome : WriteOutcome
deriving DecidableEq, Repr

/-- Observable outcome of one run of `main`: the returned exit code, which
external operations were invoked (`get_destinations`, `send_email_bcc`,
`add_sent_airline`) with the values the latter two returned, and the final
state of the ledger file. -/
structure RunResult where
  exitCode : Nat
  enrichCalled : Bool
  sendCalled : Bool
  sendValue : Bool
  commitCalled : Bool
  commitValue : Bool
  finalLedger : FileState
deriving DecidableEq, Repr

/-- Embedding of `main` (source lines 360-431; named `mainRun` because Lean reserves `main` for an executable entry point): load config, load the
ledger, fetch the catalog, filter and randomly select an available
airline, enrich, render, deliver, and commit the ledger only on delivery
success.  Each early `return 1` yields exit code 1 with no later client
invoked and the ledger file untouched. -/
def mainRun (env : Env) : RunResult :=
  match env.config with
  | none => ⟨1, false, false, false, false, false, env.fileState⟩
  | some config =>
    let sent_airlines := get_sent_airlines env.fileState
    let all_airlines := fetch_all_airlines config.ninjasKey env.queryResults
    if all_airlines.isEmpty then
      ⟨1, false, false, false, false, false, env.fileState⟩
    else
      match availableAirlines all_airlines sent_airlines with
      | [] => ⟨1, false, false, false, false, false, env.fileState⟩
      | a0 :: _ =>
        let airline := (chooseAirline env.pick all_airlines sent_airlines).getD a0
        let iata := airline.iata
        let destinations := (get_destinations iata env.destOutcome).1
        let rendered := create_email_content airline destinations env.today
        let subject := "✈️ Daily Airline: " ++ rendered.2.1
        let sendRes := send_email_bcc rendered.1 subject config.senderEmail
          config.senderPassword config.recipients env.senderName env.sendOutcome
        if sendRes.1 then
          let commitRes := add_sent_airline env.fileState (iata.getD "")
            rendered.2.1 env.nowIso env.writeOutcome
          ⟨0, true, true, true, true, commitRes.1, commitRes.2⟩
        else
          ⟨1, true, true, false, false, false, env.fileState⟩

/-- Sample catalog item with identifier `AA`. -/
def airlineAA : Airline :=
  ⟨some "AA", some "Air A", none, [], none, none, none, none⟩

/-- A second record carrying the same identifier `AA` (to exercise
deduplication). -/
def airlineAA2 : Airline :=
  ⟨some "AA", some "Air A Duplicate", none, [], none, none, none, none⟩

/-- Sample catalog item with identifier `BB`. -/
def airlineBB : Airline :=
  ⟨some "BB", some "Air B", none, [], none, none, none, none⟩

/-- A fully populated configuration. -/
def cfgSample : Config :=
  ⟨"ninjas-key", "amadeus-id", "amadeus-secret", "sender@example.com",
   "key-secret", ["alice@example.com"]⟩

/-- A run environment in which delivery raises a transport exception. -/
def envSendFail : Env :=
  ⟨some cfgSample, FileState.good ["AA"] "2026-01-01T08:00:00",
   [some [airlineAA, airlineBB]], 0, DestOutcome.responseError,
   "January 01, 2026", "2026-01-02T09:00:00", none, none, WriteOutcome.ok⟩

/-- A run environment in which delivery succeeds (HTTP 200) but the ledger
write fails. -/
def envCommitFail : Env :=
  ⟨some cfgSample, FileState.good ["AA"] "2026-01-01T08:00:00",
   [some [airlineAA, airlineBB]], 0, DestOutcome.responseError,
   "January 01, 2026", "2026-01-02T09:00:00", none, some 200,
   WriteOutcome.writeFailed⟩

/-- A run environment in which every fetched airline is already in the
ledger. -/
def envExhausted : Env :=
  ⟨some cfgSample, FileState.good ["AA", "BB"] "2026-01-01T08:00:00",
   [some [airlineAA, airlineBB]], 0, DestOutcome.responseError,
   "January 01, 2026", "2026-01-02T09:00:00", none, some 200, WriteOutcome.ok⟩

/-- Claim C10: the two textual definitions of the catalog-fetch function
`fetch_all_airlines` (the earlier, shadowed one and the later, effective
one) are extensionally equal: for every API key and every sequence of
per-letter query results they return the same deduplicated airline list. -/
theorem fetch_all_airlines_versions_eq :
    ∀ (api_key : String) (queryResults : List (Option (List Airline))),
      fetch_all_airlines_v1 api_key queryResults =
        fetch_all_airlines api_key queryResults :=
  fun _ _ => rfl

/-- Claim C8: with an empty recipients list `send_email_bcc` returns false
and issues no HTTP request; with a non-empty list it issues exactly one
HTTP request and returns true exactly when the response status is 200 (an
exception, modelled as `none`, also yields false). -/
theorem send_email_bcc_spec :
    ∀ (html_content subject sender_email sender_password : String)
      (recipients : List String) (senderName : Option String)
      (httpOutcome : Option Nat),
      (recipients = [] →
        send_email_bcc html_content subject sender_email sender_password
          recipients senderName httpOutcome = (false, 0))
      ∧ (recipients ≠ [] →
          (send_email_bcc html_content subject sender_email sender_password
            recipients senderName httpOutcome).2 = 1
          ∧ ((send_email_bcc html_content subject sender_email sender_password
              recipients senderName httpOutcome).1 = true ↔
                httpOutcome = some 200)) := by
  intro html_content subject sender_email sender_password recipients senderName httpOutcome
  constructor
  · intro h
    subst h
    rfl
  · intro h
    have hne : recipients.isEmpty = false := by
      cases recipients with
      | nil => exact absurd rfl h
      | cons r rs => rfl
    cases httpOutcome with
    | none => simp [send_email_bcc, hne]
    | some status =>
      by_cases hs : status = 200
      · subst hs
        simp [send_email_bcc, hne]
      · simp [send_email_bcc, hne, hs]

/-- Concrete instantiations of `send_email_bcc_spec`: no recipients gives
`(false, 0)`; one recipient with an HTTP 200 response gives a send. -/
theorem send_email_bcc_spec_witness :
    send_email_bcc "<html></html>" "subj" "s@x" "pw" [] none (some 200) = (false, 0)
    ∧ (send_email_bcc "<html></html>" "subj" "s@x" "pw" ["r@x"] none (some 200)).1 = true := by
  constructor
  · exact (send_email_bcc_spec "<html></html>" "subj" "s@x" "pw" [] none (some 200)).1 rfl
  · exact ((send_email_bcc_spec "<html></html>" "subj" "s@x" "pw" ["r@x"] none
      (some 200)).2 (by simp)).2.mpr rfl

/-- Claim C9: `get_destinations` returns the empty list with no network
call when the identifier is absent or not exactly two characters long, and
returns the empty list on a transport error, a domain not-found response,
or an absent data field; as a total function it never raises. -/
theorem get_destinations_spec :
    ∀ (airline_iata : Option String) (outcome : DestOutcome),
      ((airline_iata = none ∨ ∃ s, airline_iata = some s ∧ s.length ≠ 2) →
        get_destinations airline_iata outcome = ([], 0))
      ∧ (outcome = DestOutcome.success none ∨ outcome = DestOutcome.responseError ∨
          outcome = DestOutcome.otherError →
            (get_destinations airline_iata outcome).1 = []) := by
  intro airline_iata outcome
  constructor
  · intro h
    rcases h with h | ⟨s, hs, hlen⟩
    · subst h
      rfl
    · subst hs
      have : (s == "" || s.length != 2) = true := by
        simp [hlen]
      simp [get_destinations, this]
  · intro h
    cases airline_iata with
    | none => rfl
    | some s =>
      rcases h with h | h | h <;> subst h <;>
        simp only [get_destinations] <;> split <;> rfl

/-- Concrete instantiations of `get_destinations_spec`: a three-letter
identifier short-circuits even when data is available, and a well-formed
identifier with a domain error yields the empty list. -/
theorem get_destinations_spec_witness :
    get_destinations (some "XYZ") (DestOutcome.success (some [⟨some "JFK", none, none⟩])) = ([], 0)
    ∧ (get_destinations (some "BA") DestOutcome.responseError).1 = [] := by
  constructor
  · exact (get_destinations_spec (some "XYZ")
      (DestOutcome.success (some [⟨some "JFK", none, none⟩]))).1
      (Or.inr ⟨"XYZ", rfl, by decide⟩)
  · exact (get_destinations_spec (some "BA") DestOutcome.responseError).2
      (Or.inr (Or.inl rfl))

/-- Claim C5 as stated is false: `add_sent_airline` opens the ledger file
with mode `w` (truncating it) before `json.dump` writes into it, so a
write that raises mid-dump leaves a corrupt file that loads as the empty
set — here the previously committed `AA` is gone after a failed commit of
`BA`. -/
theorem add_sent_airline_not_monotone :
    "AA" ∈ get_sent_airlines (FileState.good ["AA"] "2026-01-01T08:00:00")
    ∧ "AA" ∉ get_sent_airlines
        (add_sent_airline (FileState.good ["AA"] "2026-01-01T08:00:00") "BA"
          "Test Air" "2026-01-02T09:00:00" WriteOutcome.writeFailed).2 := by
  decide

/-- Claim C5 amended: committing an identifier with a write that completes
and then loading yields a set containing that identifier and every
identifier present before the commit; preservation also holds when the
commit fails at open time (the file is untouched), but not when the write
fails after open has truncated the file — then prior identifiers are
lost. -/
theorem add_sent_airline_roundtrip :
    ∀ (fs : FileState) (iata_code airline_name now : String) (w : WriteOutcome),
      iata_code ∈ get_sent_airlines
        (add_sent_airline fs iata_code airline_name now WriteOutcome.ok).2
      ∧ get_sent_airlines fs ⊆
          get_sent_airlines (add_sent_airline fs iata_code airline_name now WriteOutcome.ok).2
      ∧ (w ≠ WriteOutcome.writeFailed →
          get_sent_airlines fs ⊆
            get_sent_airlines (add_sent_airline fs iata_code airline_name now w).2) := by
  intro fs iata_code airline_name now w
  refine ⟨?_, ?_, ?_⟩
  · show iata_code ∈ (get_sent_airlines fs).insert iata_code
    exact List.mem_insert_self iata_code (get_sent_airlines fs)
  · show get_sent_airlines fs ⊆ (get_sent_airlines fs).insert iata_code
    exact List.subset_insert iata_code (get_sent_airlines fs)
  · intro hw
    cases w with
    | ok =>
      show get_sent_airlines fs ⊆ (get_sent_airlines fs).insert iata_code
      exact List.subset_insert iata_code (get_sent_airlines fs)
    | openFailed => exact fun x hx => hx
    | writeFailed => exact absurd rfl hw

/-- Concrete instantiation of `add_sent_airline_roundtrip`: a successful
commit of `BA` over a ledger `{AA}` retains `AA` and round-trips `BA`. -/
theorem add_sent_airline_roundtrip_witness :
    "BA" ∈ get_sent_airlines
      (add_sent_airline (FileState.good ["AA"] "t0") "BA" "Test Air" "t1"
        WriteOutcome.ok).2
    ∧ "AA" ∈ get_sent_airlines
      (add_sent_airline (FileState.good ["AA"] "t0") "BA" "Test Air" "t1"
        WriteOutcome.ok).2 :=
  ⟨(add_sent_airline_roundtrip (FileState.good ["AA"] "t0") "BA" "Test Air" "t1"
      WriteOutcome.ok).1,
   (add_sent_airline_roundtrip (FileState.good ["AA"] "t0") "BA" "Test Air" "t1"
      WriteOutcome.ok).2.2 (by decide) (by decide)⟩

set_option maxRecDepth 4096 in
/-- Claim C3 as stated is false: `create_email_content` embeds the current
date (`datetime.now().strftime('%B %d, %Y')`) into the document, so two
calls with identical (item, records) inputs made on different dates
produce different output. -/
theorem create_email_content_not_date_free :
    create_email_content airlineAA [] "January 01, 2026" ≠
      create_email_content airlineAA [] "February 02, 2026" := by
  decide

/-- Claim C3 amended: `create_email_content` is pure once the current date
is made an explicit input: calls with identical (item, records, date)
inputs produce identical output, and the displayName and shownCount
components do not depend on the date at all. -/
theorem create_email_content_pure :
    ∀ (airline_data : Airline) (destinations : List Destination) (d1 d2 : String),
      (create_email_content airline_data destinations d1).2 =
        (create_email_content airline_data destinations d2).2
      ∧ (d1 = d2 →
          create_email_content airline_data destinations d1 =
            create_email_content airline_data destinations d2) := by
  intro airline_data destinations d1 d2
  exact ⟨rfl, fun h => by rw [h]⟩

/-- Concrete instantiation of `create_email_content_pure` at equal dates. -/
theorem create_email_content_pure_witness :
    create_email_content airlineAA [] "January 01, 2026" =
      create_email_content airlineAA [] "January 01, 2026" :=
  (create_email_content_pure airlineAA [] "January 01, 2026" "January 01, 2026").2 rfl

/-- Elements of the available list are catalog members whose identifier is
not in the ledger. -/
theorem mem_availableAirlines {catalog : List Airline} {sent : List String}
    {a : Airline} :
    a ∈ availableAirlines catalog sent ↔
      a ∈ catalog ∧ optMem a.iata sent = false := by
  simp [availableAirlines, List.mem_filter]

/-- Claim C1: whenever some catalog item's identifier is not in the ledger,
the selection step of `main` returns an airline (never `NotFound`), and
any airline it returns is a catalog element whose identifier is not in the
ledger. -/
theorem chooseAirline_spec :
    ∀ (catalog : List Airline) (sent_airlines : List String) (pick : Nat),
      (∃ a, a ∈ catalog ∧ optMem a.iata sent_airlines = false) →
        chooseAirline pick catalog sent_airlines ≠ none
        ∧ ∀ a, chooseAirline pick catalog sent_airlines = some a →
            a ∈ catalog ∧ optMem a.iata sent_airlines = false := by
  intro catalog sent_airlines pick h
  obtain ⟨a, ha, hmem⟩ := h
  have havail : a ∈ availableAirlines catalog sent_airlines :=
    mem_availableAirlines.mpr ⟨ha, hmem⟩
  have hlen : 0 < (availableAirlines catalog sent_airlines).length :=
    List.length_pos.mpr (List.ne_nil_of_mem havail)
  have hidx : pick % (availableAirlines catalog sent_airlines).length <
      (availableAirlines catalog sent_airlines).length :=
    Nat.mod_lt _ hlen
  constructor
  · show (availableAirlines catalog sent_airlines)[_]? ≠ none
    rw [List.getElem?_eq_getElem hidx]
    exact Option.some_ne_none _
  · intro b hb
    have hbmem : b ∈ availableAirlines catalog sent_airlines := by
      have : (availableAirlines catalog sent_airlines)[pick %
          (availableAirlines catalog sent_airlines).length]? = some b := hb
      exact List.getElem?_mem this
    exact mem_availableAirlines.mp hbmem

/-- Concrete instantiation of `chooseAirline_spec`: with catalog
`[AA, BB]` and ledger `{AA}`, the selected airline is a catalog member not
yet sent (the draw yields `BB`). -/
theorem chooseAirline_spec_witness :
    airlineBB ∈ [airlineAA, airlineBB] ∧ optMem airlineBB.iata ["AA"] = false :=
  (chooseAirline_spec [airlineAA, airlineBB] ["AA"] 0
      ⟨airlineBB, by decide, by decide⟩).2 airlineBB rfl

/-- Claim C2: in every run, `add_sent_airline` is invoked exactly when
`send_email_bcc` was invoked and returned true; a false delivery result
yields exit code 1 with the ledger file unchanged; a true delivery result
yields exit code 0 even when the commit returns false. -/
theorem mainRun_commit_iff_send :
    ∀ env : Env,
      (mainRun env).commitCalled = ((mainRun env).sendCalled && (mainRun env).sendValue)
      ∧ ((mainRun env).sendCalled = true → (mainRun env).sendValue = false →
          (mainRun env).exitCode = 1 ∧ (mainRun env).finalLedger = env.fileState)
      ∧ ((mainRun env).sendCalled = true → (mainRun env).sendValue = true →
          (mainRun env).commitValue = false → (mainRun env).exitCode = 0) := by
  intro env
  rcases env with ⟨cfg, fs, q, pick, dout, today, nowIso, sname, sout, wok⟩
  rcases cfg with _ | config
  · simp [mainRun]
  · simp only [mainRun]
    split
    · simp
    · split
      · simp
      · split
        · simp
        · simp

/-- Concrete instantiations of `mainRun_commit_iff_send`: a run whose
delivery raises exits with code 1, and a run whose delivery succeeds but
whose ledger write fails still exits with code 0. -/
theorem mainRun_commit_iff_send_witness :
    (mainRun envSendFail).exitCode = 1 ∧ (mainRun envCommitFail).exitCode = 0 :=
  ⟨((mainRun_commit_iff_send envSendFail).2.1 rfl rfl).1,
   (mainRun_commit_iff_send envCommitFail).2.2 rfl rfl rfl⟩

/-- Claim C6: when every fetched airline's identifier is already in the
ledger (the available set is empty), `main` exits with code 1 without
invoking the enrichment client or the delivery client (nor the commit). -/
theorem mainRun_exhausted :
    ∀ env : Env,
      (∀ key a, a ∈ fetch_all_airlines key env.queryResults →
          optMem a.iata (get_sent_airlines env.fileState) = true) →
        (mainRun env).exitCode = 1 ∧ (mainRun env).enrichCalled = false
        ∧ (mainRun env).sendCalled = false ∧ (mainRun env).commitCalled = false := by
  intro env h
  rcases env with ⟨cfg, fs, q, pick, dout, today, nowIso, sname, sout, wok⟩
  rcases cfg with _ | config
  · simp [mainRun]
  · have hav : availableAirlines (fetch_all_airlines config.ninjasKey q)
        (get_sent_airlines fs) = [] := by
      apply List.filter_eq_nil_iff.mpr
      intro a ha
      have := h config.ninjasKey a ha
      simp [this]
    simp only [mainRun]
    split
    · simp
    · rw [hav]
      simp

/-- Concrete instantiation of `mainRun_exhausted`: with catalog
`[AA, BB]` and ledger `{AA, BB}` the run exits 1 without enrichment or
delivery. -/
theorem mainRun_exhausted_witness : (mainRun envExhausted).exitCode = 1 := by
  have h := mainRun_exhausted envExhausted (by
    intro key a ha
    have e : fetch_all_airlines key envExhausted.queryResults =
        [airlineAA, airlineBB] := rfl
    rw [e] at ha
    simp only [List.mem_cons, List.not_mem_nil, or_false] at ha
    rcases ha with ha | ha <;> subst ha <;> decide)
  exact h.1

/-- One destination-loop step appends the formatted line exactly when the
record's `iataCode` is truthy. -/
theorem destStep_eq (valid_dests : List String) (d : Destination) :
    destStep valid_dests d =
      if destHasCode d then valid_dests ++ [destLine d] else valid_dests := by
  cases hd : d.iataCode with
  | none => simp [destStep, destHasCode, hd]
  | some c =>
    by_cases hc : c = ""
    · subst hc
      simp [destStep, destHasCode, hd]
    · simp [destStep, destHasCode, destLine, hd, hc]

/-- Folding the destination loop appends, in order, the formatted line of
every record with a truthy `iataCode`. -/
theorem foldl_destStep (ds : List Destination) (acc : List String) :
    ds.foldl destStep acc = acc ++ (ds.filter destHasCode).map destLine := by
  induction ds generalizing acc with
  | nil => simp
  | cons d ds ih =>
    rw [List.foldl_cons, ih, destStep_eq]
    by_cases h : destHasCode d
    · simp [h, List.filter_cons]
    · simp [h, List.filter_cons]

/-- The `valid_dests` list is the ordered formatted lines of the records
with a truthy `iataCode`. -/
theorem validDestinations_eq (ds : List Destination) :
    validDestinations ds = (ds.filter destHasCode).map destLine := by
  cases ds with
  | nil => rfl
  | cons d ds =>
    have h : validDestinations (d :: ds) = (d :: ds).foldl destStep [] := rfl
    rw [h, foldl_destStep, List.nil_append]

/-- Claim C4: `create_email_content` keeps exactly the records with a
truthy identifier, formats each as `identifier – displayName, country`,
splits the ordered list of the n kept records into a first column of
ceil(n/2) and a second of floor(n/2) with nothing dropped, and reports
exactly n as the shown count. -/
theorem create_email_content_destinations_spec :
    ∀ ds : List Destination,
      validDestinations ds = (ds.filter destHasCode).map destLine
      ∧ ((validDestinations ds).take (((validDestinations ds).length + 1) / 2)).length
          = ((validDestinations ds).length + 1) / 2
      ∧ ((validDestinations ds).drop (((validDestinations ds).length + 1) / 2)).length
          = (validDestinations ds).length / 2
      ∧ (validDestinations ds).take (((validDestinations ds).length + 1) / 2)
          ++ (validDestinations ds).drop (((validDestinations ds).length + 1) / 2)
          = validDestinations ds
      ∧ ∀ (airline_data : Airline) (today : String),
          (create_email_content airline_data ds today).2.2 =
            (ds.filter destHasCode).length := by
  intro ds
  refine ⟨validDestinations_eq ds, ?_, ?_, List.take_append_drop _ _, ?_⟩
  · rw [List.length_take]
    omega
  · rw [List.length_drop]
    omega
  · intro airline_data today
    show (validDestinations ds).length = (ds.filter destHasCode).length
    rw [validDestinations_eq, List.length_map]

/-- All airline items delivered by the successful per-letter queries, in
query order (failed queries contribute nothing). -/
def flattenPages (queryResults : List (Option (List Airline))) : List Airline :=
  (queryResults.filterMap id).flatten

/-- Structural recursion equivalent of the fetch dedup fold: keep an item
when its `iata` is truthy and not yet seen, threading the seen set. -/
def dedupSpec : List Airline → List String → List Airline
  | [], _ => []
  | a :: rest, seen =>
    match a.iata with
    | none => dedupSpec rest seen
    | some s =>
      if s == "" then dedupSpec rest seen
      else if seen.contains s then dedupSpec rest seen
      else a :: dedupSpec rest (s :: seen)

/-- Folding the per-letter results equals folding the flattened pages. -/
theorem foldl_fetchLetter (q : List (Option (List Airline)))
    (st : List String × List Airline) :
    q.foldl fetchLetter st = (flattenPages q).foldl fetchStep st := by
  induction q generalizing st with
  | nil => rfl
  | cons r q ih =>
    cases r with
    | none =>
      rw [List.foldl_cons]
      show q.foldl fetchLetter st = _
      rw [ih]
      have h : flattenPages (none :: q) = flattenPages q := by
        simp [flattenPages]
      rw [h]
    | some page =>
      rw [List.foldl_cons]
      show q.foldl fetchLetter (page.foldl fetchStep st) = _
      rw [ih]
      have h : flattenPages (some page :: q) = page ++ flattenPages q := by
        simp [flattenPages]
      rw [h, List.foldl_append]

/-- The accumulated airline list of the dedup fold is the accumulator
followed by the recursive dedup of the remaining items. -/
theorem foldl_fetchStep_snd (l : List Airline) :
    ∀ (seen : List String) (acc : List Airline),
      (l.foldl fetchStep (seen, acc)).2 = acc ++ dedupSpec l seen := by
  induction l with
  | nil => intro seen acc; simp [dedupSpec]
  | cons a l ih =>
    intro seen acc
    rw [List.foldl_cons]
    cases ha : a.iata with
    | none =>
      simp only [fetchStep, ha, dedupSpec]
      exact ih seen acc
    | some s =>
      simp only [fetchStep, ha, dedupSpec]
      by_cases hs : s == ""
      · simp only [hs, if_true]
        exact ih seen acc
      · simp only [Bool.not_eq_true] at hs
        simp only [hs, if_false, Bool.false_eq_true]
        by_cases hseen : seen.contains s
        · simp only [hseen, if_true]
          exact ih seen acc
        · simp only [Bool.not_eq_true] at hseen
          simp only [hseen, if_false, Bool.false_eq_true]
          rw [ih (s :: seen) (acc ++ [a])]
          simp

/-- Every kept item has a truthy identifier that was not previously seen. -/
theorem dedupSpec_mem : ∀ (l : List Airline) (seen : List String) (a : Airline),
    a ∈ dedupSpec l seen →
      ∃ s, a.iata = some s ∧ s ≠ "" ∧ seen.contains s = false := by
  intro l
  induction l with
  | nil => intro seen a h; simp [dedupSpec] at h
  | cons b l ih =>
    intro seen a h
    cases hb : b.iata with
    | none =>
      simp only [dedupSpec, hb] at h
      exact ih seen a h
    | some t =>
      simp only [dedupSpec, hb] at h
      split at h
      · exact ih seen a h
      · split at h
        · exact ih seen a h
        · rename_i hts hcont
          rcases List.mem_cons.mp h with rfl | h2
          · refine ⟨t, hb, ?_, ?_⟩
            · simpa using hts
            · simpa using hcont
          · obtain ⟨s, hs, hse, hcontf⟩ := ih (t :: seen) a h2
            refine ⟨s, hs, hse, ?_⟩
            simp only [List.contains_cons, Bool.or_eq_false_iff] at hcontf
            exact hcontf.2

/-- The identifiers of the kept items are pairwise distinct. -/
theorem dedupSpec_nodup : ∀ (l : List Airline) (seen : List String),
    ((dedupSpec l seen).filterMap Airline.iata).Nodup := by
  intro l
  induction l with
  | nil => intro seen; simp [dedupSpec]
  | cons b l ih =>
    intro seen
    cases hb : b.iata with
    | none =>
      simp only [dedupSpec, hb]
      exact ih seen
    | some t =>
      simp only [dedupSpec, hb]
      split
      · exact ih seen
      · split
        · exact ih seen
        · rename_i hts hcont
          rw [List.filterMap_cons]
          simp only [hb]
          rw [List.nodup_cons]
          refine ⟨?_, ih (t :: seen)⟩
          intro hmem
          rw [List.mem_filterMap] at hmem
          obtain ⟨c, hc, hciata⟩ := hmem
          obtain ⟨s, hs, hse, hcontf⟩ := dedupSpec_mem l (t :: seen) c hc
          rw [hciata] at hs
          injection hs with hst
          subst hst
          simp at hcontf

/-- The kept items form a subsequence of the input (insertion order). -/
theorem dedupSpec_sublist : ∀ (l : List Airline) (seen : List String),
    (dedupSpec l seen).Sublist l := by
  intro l
  induction l with
  | nil => intro seen; simp [dedupSpec]
  | cons b l ih =>
    intro seen
    cases hb : b.iata with
    | none =>
      simp only [dedupSpec, hb]
      exact (ih seen).cons b
    | some t =>
      simp only [dedupSpec, hb]
      split
      · exact (ih seen).cons b
      · split
        · exact (ih seen).cons b
        · exact (ih (t :: seen)).cons₂ b

/-- A kept item is the first input item bearing its identifier. -/
theorem dedupSpec_first : ∀ (l : List Airline) (seen : List String) (s : String) (a : Airline),
    a ∈ dedupSpec l seen → a.iata = some s →
      l.find? (fun x => x.iata == some s) = some a := by
  intro l
  induction l with
  | nil => intro seen s a h; simp [dedupSpec] at h
  | cons b l ih =>
    intro seen s a h ha
    cases hb : b.iata with
    | none =>
      simp only [dedupSpec, hb] at h
      rw [List.find?_cons_of_neg _ (by simp [hb])]
      exact ih seen s a h ha
    | some t =>
      simp only [dedupSpec, hb] at h
      split at h
      · rename_i hts
        obtain ⟨s', hs', hs'ne, _⟩ := dedupSpec_mem l seen a h
        rw [ha] at hs'
        injection hs' with hss'
        subst hss'
        have ht : t = "" := by simpa using hts
        rw [List.find?_cons_of_neg _ (by simp [hb, ht]; exact fun he => hs'ne he.symm)]
        exact ih seen s a h ha
      · rename_i hts
        split at h
        · rename_i hcont
          obtain ⟨s', hs', _, hcontf⟩ := dedupSpec_mem l seen a h
          rw [ha] at hs'
          injection hs' with hss'
          subst hss'
          have hne : t ≠ s := by
            intro he
            subst he
            rw [hcontf] at hcont
            cases hcont
          rw [List.find?_cons_of_neg _ (by simpa [hb] using hne)]
          exact ih seen s a h ha
        · rename_i hcont
          rcases List.mem_cons.mp h with rfl | h2
          · have hts2 : t = s := by
              rw [ha] at hb
              injection hb with h'
              exact h'.symm
            subst hts2
            rw [List.find?_cons_of_pos _ (by simp [hb])]
          · obtain ⟨s', hs', _, hcontf⟩ := dedupSpec_mem l (t :: seen) a h2
            rw [ha] at hs'
            injection hs' with hss'
            subst hss'
            have hne : t ≠ s := by
              intro he
              subst he
              simp at hcontf
            rw [List.find?_cons_of_neg _ (by simpa [hb] using hne)]
            exact ih (t :: seen) s a h2 ha

/-- Every unseen truthy identifier occurring in the input is represented
among the kept items. -/
theorem dedupSpec_complete : ∀ (l : List Airline) (seen : List String) (s : String) (a : Airline),
    a ∈ l → a.iata = some s → s ≠ "" → seen.contains s = false →
      ∃ b, b ∈ dedupSpec l seen ∧ b.iata = some s := by
  intro l
  induction l with
  | nil => intro seen s a h; simp at h
  | cons b l ih =>
    intro seen s a hmem ha hs hcont
    cases hb : b.iata with
    | none =>
      simp only [dedupSpec, hb]
      rcases List.mem_cons.mp hmem with rfl | h2
      · rw [hb] at ha
        exact Option.noConfusion ha
      · exact ih seen s a h2 ha hs hcont
    | some t =>
      simp only [dedupSpec, hb]
      split
      · rename_i hts
        rcases List.mem_cons.mp hmem with rfl | h2
        · rw [hb] at ha
          injection ha with h'
          subst h'
          exact absurd (by simpa using hts) hs
        · exact ih seen s a h2 ha hs hcont
      · rename_i hts
        split
        · rename_i hcontT
          rcases List.mem_cons.mp hmem with rfl | h2
          · rw [hb] at ha
            injection ha with h'
            subst h'
            rw [hcont] at hcontT
            cases hcontT
          · exact ih seen s a h2 ha hs hcont
        · rename_i hcontT
          by_cases hts2 : t = s
          · refine ⟨b, List.mem_cons_self b _, ?_⟩
            rw [hb, hts2]
          · rcases List.mem_cons.mp hmem with rfl | h2
            · rw [hb] at ha
              injection ha with h'
              exact absurd h' hts2
            · have hcont2 : (t :: seen).contains s = false := by
                simp only [List.contains_cons, Bool.or_eq_false_iff]
                refine ⟨?_, hcont⟩
                simp only [beq_eq_false_iff_ne]
                exact fun he => hts2 he.symm
              obtain ⟨b', hb', hb'i⟩ := ih (t :: seen) s a h2 ha hs hcont2
              exact ⟨b', List.mem_cons_of_mem _ hb', hb'i⟩

/-- The catalog fetcher computes exactly the first-occurrence dedup of the
flattened successful pages. -/
theorem fetch_all_airlines_eq_dedupSpec (api_key : String)
    (q : List (Option (List Airline))) :
    fetch_all_airlines api_key q = dedupSpec (flattenPages q) [] := by
  show (q.foldl fetchLetter ([], [])).2 = _
  rw [foldl_fetchLetter, foldl_fetchStep_snd]
  simp

/-- Sample query results: a page with `AA`, a failed letter, and a page
with a duplicate `AA` record and `BB`. -/
def qSample : List (Option (List Airline)) :=
  [some [airlineAA], none, some [airlineAA2, airlineBB]]

/-- Claim C7: the catalog fetcher returns items with pairwise-distinct
truthy identifiers, excludes items lacking an identifier, keeps the first
occurrence in insertion order across the letter queries (it is a
subsequence of the flattened pages in which each surviving identifier is
represented by its first occurrence, and no identifier is lost), skips a
failed letter without aborting, and returns the empty list (not an error)
when every query fails. -/
theorem fetch_all_airlines_dedup_spec :
    ∀ (api_key : String) (q : List (Option (List Airline))),
      (∀ a, a ∈ fetch_all_airlines api_key q → ∃ s, a.iata = some s ∧ s ≠ "")
      ∧ ((fetch_all_airlines api_key q).filterMap Airline.iata).Nodup
      ∧ (fetch_all_airlines api_key q).Sublist (flattenPages q)
      ∧ (∀ (s : String) (a : Airline), a ∈ fetch_all_airlines api_key q →
          a.iata = some s →
            (flattenPages q).find? (fun x => x.iata == some s) = some a)
      ∧ (∀ (s : String) (a : Airline), a ∈ flattenPages q → a.iata = some s →
          s ≠ "" → ∃ b, b ∈ fetch_all_airlines api_key q ∧ b.iata = some s)
      ∧ (∀ xs ys, fetch_all_airlines api_key (xs ++ none :: ys) =
          fetch_all_airlines api_key (xs ++ ys))
      ∧ ((∀ r, r ∈ q → r = none) → fetch_all_airlines api_key q = []) := by
  intro api_key q
  refine ⟨?_, ?_, ?_, ?_, ?_, ?_, ?_⟩
  · intro a ha
    rw [fetch_all_airlines_eq_dedupSpec] at ha
    obtain ⟨s, h1, h2, _⟩ := dedupSpec_mem _ _ a ha
    exact ⟨s, h1, h2⟩
  · rw [fetch_all_airlines_eq_dedupSpec]
    exact dedupSpec_nodup _ _
  · rw [fetch_all_airlines_eq_dedupSpec]
    exact dedupSpec_sublist _ _
  · intro s a ha hi
    rw [fetch_all_airlines_eq_dedupSpec] at ha
    exact dedupSpec_first _ _ s a ha hi
  · intro s a ha hi hs
    rw [fetch_all_airlines_eq_dedupSpec]
    exact dedupSpec_complete _ _ s a ha hi hs rfl
  · intro xs ys
    rw [fetch_all_airlines_eq_dedupSpec, fetch_all_airlines_eq_dedupSpec]
    have h : flattenPages (xs ++ none :: ys) = flattenPages (xs ++ ys) := by
      simp [flattenPages, List.filterMap_append]
    rw [h]
  · intro h
    rw [fetch_all_airlines_eq_dedupSpec]
    have h1 : q.filterMap id = [] := by
      rw [List.filterMap_eq_nil_iff]
      intro r hr
      rw [h r hr]
      rfl
    have h2 : flattenPages q = [] := by
      simp [flattenPages, h1]
    rw [h2]
    rfl

/-- Concrete instantiations of `fetch_all_airlines_dedup_spec`: with two
pages both containing identifier `AA` the first record is the one kept,
and an all-failed fetch returns the empty list. -/
theorem fetch_all_airlines_dedup_spec_witness :
    (flattenPages qSample).find? (fun x => x.iata == some "AA") = some airlineAA
    ∧ fetch_all_airlines "ninjas-key" [none, none] = [] := by
  constructor
  · exact (fetch_all_airlines_dedup_spec "ninjas-key" qSample).2.2.2.1 "AA"
      airlineAA (by decide) rfl
  · exact (fetch_all_airlines_dedup_spec "ninjas-key" [none, none]).2.2.2.2.2.2 (by
      intro r hr
      rcases List.mem_cons.mp hr with rfl | hr2
      · rfl
      · rcases List.mem_cons.mp hr2 with rfl | hr3
        · rfl
        · cases hr3)
